import Mathlib

/-!
# Verification of `utils_timeseries.py`

Shallow embedding of the series-preparation utilities of the repository
(`src/Modelagem-de-Series-Temporais/P01-Time-Series-Active-Users-Forecast/src/utils_timeseries.py`).

Modelling choices:
* A pandas `Series` is a list of pairs `(index tag, value)`, where a value is
  `Option ℚ` (`none` models `NaN`, the "missing" marker; floating-point
  arithmetic is modelled exactly over `ℚ`).
* A timestamp (`pd.Timestamp`) is an integer `ℤ`; an unparseable date
  (`pd.NaT`, produced by `pd.to_datetime(..., errors="coerce")`) is `none`,
  so a timestamp index entry is `Option ℤ`.
* External library calls (`pd.to_datetime`, `pd.to_numeric`, `Series.asfreq`,
  `scipy.stats.boxcox`) are abstract function parameters: the embedding is
  parametric in them, exactly as the code treats them as black boxes.
* Python exceptions are modelled by `Except` with an error type mirroring the
  error taxonomy; an error message that enumerates the available columns is
  modelled by the error constructor carrying that list of columns.
-/

variable {ι : Type}

/-- NaN-propagating subtraction on values: `a - b` is missing as soon as one
operand is missing (pandas arithmetic on `NaN`). -/
def osub : Option ℚ → Option ℚ → Option ℚ
  | some a, some b => some (a - b)
  | _, _ => none

@[simp] theorem osub_some_some (a b : ℚ) : osub (some a) (some b) = some (a - b) := rfl

@[simp] theorem osub_none_right (v : Option ℚ) : osub v none = none := by
  cases v <;> rfl

@[simp] theorem osub_none_left (v : Option ℚ) : osub none v = none := by
  cases v <;> rfl

/-- Helper for `Series.diff`: walks the list keeping the previous entry's raw
value; entry `i` of the result is `value[i] - value[i-1]` (NaN-propagating). -/
def diffFrom (prev : Option ℚ) : List (ι × Option ℚ) → List (ι × Option ℚ)
  | [] => []
  | p :: rest => (p.1, osub p.2 prev) :: diffFrom p.2 rest

/-- `Series.diff()` (pandas): first entry becomes missing (there is no
predecessor, modelled by starting the walk with `prev = none`), every other
entry becomes the difference with its predecessor. The index is unchanged. -/
def seriesDiff (s : List (ι × Option ℚ)) : List (ι × Option ℚ) :=
  diffFrom none s

/-- `Series.dropna()` (pandas): keeps exactly the entries whose value is not
missing. The index of an entry is not inspected. -/
def seriesDropna (s : List (ι × Option ℚ)) : List (ι × Option ℚ) :=
  s.filter (fun p => p.2.isSome)

/-- `difference_series(serie, order, dropna)` from `utils_timeseries.py`
(lines 193-222): applies `Series.diff()` `order` times to a copy of the
input, then drops missing values if `dropna` is set. -/
def difference_series (s : List (ι × Option ℚ)) (order : ℕ) (dropna : Bool) :
    List (ι × Option ℚ) :=
  let d := seriesDiff^[order] s
  if dropna then seriesDropna d else d

/-- Error taxonomy of `fill_missing`. -/
inductive FillError where
  | missingValue
  | unsupportedMethod (method : String)
deriving DecidableEq

/-- `Series.fillna(c)` (pandas): replaces every missing value by the constant
`c`; non-missing values and the index are untouched. -/
def seriesFillna (c : ℚ) (s : List (ι × Option ℚ)) : List (ι × Option ℚ) :=
  s.map (fun p => (p.1, some (p.2.getD c)))

/-- `Series.fillna` with a possibly-missing constant: filling with `NaN`
(which is what `fillna(serie.mean())` does on an all-missing series) leaves
the series unchanged. -/
def seriesFillnaOpt (c : Option ℚ) (s : List (ι × Option ℚ)) : List (ι × Option ℚ) :=
  match c with
  | none => s
  | some x => seriesFillna x s

/-- Helper for `Series.ffill`: walks the list carrying the last non-missing
value seen so far. -/
def ffillFrom (last : Option ℚ) : List (ι × Option ℚ) → List (ι × Option ℚ)
  | [] => []
  | p :: rest =>
    match p.2 with
    | some x => (p.1, some x) :: ffillFrom (some x) rest
    | none => (p.1, last) :: ffillFrom last rest

/-- `Series.ffill()` (pandas): forward fill, propagating the last known value;
leading missing entries stay missing. -/
def seriesFfill (s : List (ι × Option ℚ)) : List (ι × Option ℚ) :=
  ffillFrom none s

/-- `Series.bfill()` (pandas): backward fill, i.e. forward fill on the
reversed sequence. -/
def seriesBfill (s : List (ι × Option ℚ)) : List (ι × Option ℚ) :=
  (ffillFrom none s.reverse).reverse

/-- `Series.mean()` (pandas): arithmetic mean of the non-missing values,
`NaN` (modelled `none`) when every value is missing. -/
def seriesMean (s : List (ι × Option ℚ)) : Option ℚ :=
  let vs := s.filterMap Prod.snd
  if vs.isEmpty then none else some (vs.sum / vs.length)

/-- Insertion of a rational into a sorted list (ascending). -/
def insertQ (x : ℚ) : List ℚ → List ℚ
  | [] => [x]
  | y :: ys => if x ≤ y then x :: y :: ys else y :: insertQ x ys

/-- Ascending sort of a list of rationals. -/
def sortQ : List ℚ → List ℚ
  | [] => []
  | x :: xs => insertQ x (sortQ xs)

/-- `Series.median()` (pandas): middle element of the sorted non-missing
values (mean of the two middle elements for an even count), `NaN` when every
value is missing. -/
def seriesMedian (s : List (ι × Option ℚ)) : Option ℚ :=
  let vs := sortQ (s.filterMap Prod.snd)
  let n := vs.length
  if n = 0 then none
  else if n % 2 = 1 then some (vs.getD (n / 2) 0)
  else some ((vs.getD (n / 2 - 1) 0 + vs.getD (n / 2) 0) / 2)

/-- `fill_missing(serie, method, value)` from `utils_timeseries.py`
(lines 146-189): dispatches on the `method` string; `method="value"` without
a constant raises (missing configuration), an unrecognized method raises
(unsupported method). -/
def fill_missing (s : List (ι × Option ℚ)) (method : String) (value : Option ℚ) :
    Except FillError (List (ι × Option ℚ)) :=
  if method = "ffill" then .ok (seriesFfill s)
  else if method = "bfill" then .ok (seriesBfill s)
  else if method = "mean" then .ok (seriesFillnaOpt (seriesMean s) s)
  else if method = "median" then .ok (seriesFillnaOpt (seriesMedian s) s)
  else if method = "zero" then .ok (seriesFillna 0 s)
  else if method = "value" then
    match value with
    | none => .error .missingValue
    | some v => .ok (seriesFillna v s)
  else .error (.unsupportedMethod method)

/-- Error taxonomy of `boxcox_transform`. -/
inductive BoxcoxError where
  | domainViolation
deriving DecidableEq

/-- `boxcox_transform(serie, lmbda)` from `utils_timeseries.py`
(lines 298-334): drops missing values, raises a domain violation if any
remaining value is `≤ 0`, otherwise applies `scipy.stats.boxcox`.
`statsBoxcox vals lmbda` abstracts the library call: it returns the
transformed values together with the fitted lambda (the fitted lambda is
only consulted when no lambda was supplied, as in the source). -/
def boxcox_transform (statsBoxcox : List ℚ → Option ℚ → List ℚ × ℚ)
    (s : List (ι × Option ℚ)) (lmbda : Option ℚ) :
    Except BoxcoxError (List (ι × ℚ) × ℚ) :=
  let clean : List (ι × ℚ) := s.filterMap (fun p => p.2.map (fun v => (p.1, v)))
  if clean.any (fun p => decide (p.2 ≤ 0)) then .error .domainViolation
  else
    match lmbda with
    | none =>
      let r := statsBoxcox (clean.map Prod.snd) none
      .ok ((clean.map Prod.fst).zip r.1, r.2)
    | some l =>
      .ok ((clean.map Prod.fst).zip (statsBoxcox (clean.map Prod.snd) (some l)).1, l)

/-- Error taxonomy of `load_timeseries`. A Python `KeyError` raised by
`_resolve_col`, whose message enumerates the available columns, is modelled
by `columnNotFound` carrying that list; the `KeyError` raised at
`df.set_index(date_col_name)[value_col_name]` when the value column was
consumed by `set_index` (both selectors resolved to the same column) is
modelled by `keyError` carrying the missing name. -/
inductive LoadError where
  | fileNotFound
  | missingConfiguration
  | columnNotFound (available : List String)
  | keyError (name : String)
deriving DecidableEq

/-- A parsed data frame: column names plus rows of raw cells. -/
structure DataFrame where
  cols : List String
  rows : List (List String)
deriving DecidableEq

/-- Duplicate-header mangling of `pd.read_csv`: the first occurrence of a
name is kept, every later occurrence of the same name gets a positional
suffix (`a`, `a.1`, `a.2`, ...). `seen` accumulates the names already
emitted (unsuffixed form). -/
def mangleFrom (seen : List String) : List String → List String
  | [] => []
  | c :: rest =>
    (if seen.count c = 0 then c else c ++ "." ++ toString (seen.count c)) ::
      mangleFrom (c :: seen) rest

/-- Header names after `pd.read_csv`'s duplicate mangling. -/
def mangleDupes (cols : List String) : List String :=
  mangleFrom [] cols

/-- `pd.read_csv` on a file seen as a list of lines of cells: with a header
the first line names the columns (duplicates mangled to `a`, `a.1`, ...),
without one the columns get positional names (`pandas` uses the integers
`0, 1, ...`; we render them as strings) and every line is data. -/
def read_csv (lines : List (List String)) (hasHeader : Bool) : DataFrame :=
  if hasHeader then
    { cols := mangleDupes (lines.headD []), rows := lines.tail }
  else
    { cols := (List.range ((lines.headD []).length)).map toString, rows := lines }

/-- `df.rename(columns={0: n0, 1: n1})`: renames the first two positional
columns. -/
def renameCols01 (n0 n1 : String) : List String → List String
  | [] => []
  | [_] => [n0]
  | _ :: _ :: t => n0 :: n1 :: t

/-- `_resolve_col` from `load_timeseries` (lines 59-69): an integer selector
is positional (Python semantics, so negative positions count from the end;
any out-of-range position raises `KeyError` listing the columns), a string
selector must be one of the column names (otherwise `KeyError` listing the
columns). -/
def resolveCol (cols : List String) (col : ℤ ⊕ String) : Except LoadError String :=
  match col with
  | .inl i =>
    if 0 ≤ i ∧ i < (cols.length : ℤ) then .ok (cols.getD i.toNat "")
    else if -(cols.length : ℤ) ≤ i ∧ i < 0 then
      .ok (cols.getD ((cols.length : ℤ) + i).toNat "")
    else .error (.columnNotFound cols)
  | .inr name =>
    if name ∈ cols then .ok name else .error (.columnNotFound cols)

/-- The series built by `df.set_index(date_col_name)[value_col_name]` after
the two `coerce` conversions: one entry per row, the index component the
parsed date cell, the value component the parsed value cell. A cell absent
from a short row is `NaN`, which both conversions keep as missing. -/
def extractSeries (parseDate : String → Option ℤ) (parseNum : String → Option ℚ)
    (df : DataFrame) (dName vName : String) : List (Option ℤ × Option ℚ) :=
  df.rows.map (fun row =>
    ((row.get? (df.cols.indexOf dName)).bind parseDate,
     (row.get? (df.cols.indexOf vName)).bind parseNum))

/-- `ts = df.set_index(date_col_name)[value_col_name]` (line 87):
`set_index` (default `drop=True`) consumes the date column, so selecting the
value column afterwards raises a `KeyError` when the two resolved names
coincide; column names being unique after mangling, that is exactly the
failing case. Otherwise the series has one entry per row. -/
def setIndexSelect (parseDate : String → Option ℤ) (parseNum : String → Option ℚ)
    (df : DataFrame) (dName vName : String) :
    Except LoadError (List (Option ℤ × Option ℚ)) :=
  if vName = dName then .error (.keyError vName)
  else .ok (extractSeries parseDate parseNum df dName vName)

/-- Total order used by `Series.sort_index()`: timestamps ascending, missing
timestamps (`NaT`) last (pandas `na_position="last"`). -/
def idxLE : Option ℤ → Option ℤ → Bool
  | some a, some b => decide (a ≤ b)
  | some _, none => true
  | none, some _ => false
  | none, none => true

/-- `sort_index` order lifted to series entries. -/
def entryLE (a b : Option ℤ × Option ℚ) : Prop := idxLE a.1 b.1 = true

instance : DecidableRel (entryLE) := fun a b =>
  inferInstanceAs (Decidable (idxLE a.1 b.1 = true))

instance : IsTotal (Option ℤ × Option ℚ) entryLE :=
  ⟨by
    rintro ⟨a, _⟩ ⟨b, _⟩
    unfold entryLE idxLE
    rcases a with _ | x <;> rcases b with _ | y <;> simp [Int.le_total]⟩

instance : IsTrans (Option ℤ × Option ℚ) entryLE :=
  ⟨by
    rintro ⟨a, _⟩ ⟨b, _⟩ ⟨c, _⟩
    unfold entryLE idxLE
    rcases a with _ | x <;> rcases b with _ | y <;> rcases c with _ | z <;>
      (simp; try omega)⟩

/-- `Series.sort_index()` (pandas): sorts the entries by index, missing
timestamps last, keeping duplicates. -/
def sortByIndex (s : List (Option ℤ × Option ℚ)) : List (Option ℤ × Option ℚ) :=
  List.insertionSort entryLE s

/-- Reading phase of `load_timeseries` (lines 46-54): with a header the file
is read as-is; without one the caller must have supplied exactly two column
names ("missing configuration" otherwise), and the two positional columns
are renamed to them. -/
def buildFrame (lines : List (List String)) (hasHeader : Bool)
    (columnNames : Option (List String)) : Except LoadError DataFrame :=
  if hasHeader then .ok (read_csv lines true)
  else
    match columnNames with
    | none => .error .missingConfiguration
    | some names =>
      if names.length ≠ 2 then .error .missingConfiguration
      else
        let d := read_csv lines false
        .ok { cols := renameCols01 (names.getD 0 "") (names.getD 1 "") d.cols,
              rows := d.rows }

/-- `load_timeseries` from `utils_timeseries.py` (lines 19-100).

* `parseDate` abstracts `pd.to_datetime(..., errors="coerce")` (including any
  `date_format` the caller fixed), `parseNum` abstracts
  `pd.to_numeric(..., errors="coerce")`, `asfreq` abstracts
  `Series.asfreq(freq)`; all three are external library calls.
* `file` is `none` when the path does not exist, otherwise the file's lines.
* `freq` tells whether a frequency was supplied (the `asfreq` branch).

Step order follows the source: existence check, read (with the
`column_names` validation in the headerless branch), column resolution (date
column first), coercion and series construction, `dropna`, `sort_index`,
`asfreq`. -/
def load_timeseries (parseDate : String → Option ℤ) (parseNum : String → Option ℚ)
    (asfreq : List (Option ℤ × Option ℚ) → List (Option ℤ × Option ℚ))
    (file : Option (List (List String))) (dateCol valueCol : ℤ ⊕ String)
    (hasHeader : Bool) (columnNames : Option (List String))
    (freq dropna sortIndex : Bool) :
    Except LoadError (List (Option ℤ × Option ℚ)) :=
  match file with
  | none => .error .fileNotFound
  | some lines =>
    match buildFrame lines hasHeader columnNames with
    | .error e => .error e
    | .ok df =>
      match resolveCol df.cols dateCol with
      | .error e => .error e
      | .ok dName =>
        match resolveCol df.cols valueCol with
        | .error e => .error e
        | .ok vName =>
          match setIndexSelect parseDate parseNum df dName vName with
          | .error e => .error e
          | .ok ts0 =>
            let ts := if dropna then seriesDropna ts0 else ts0
            let ts := if sortIndex then sortByIndex ts else ts
            .ok (if freq then asfreq ts else ts)

/-! ## Basic lemmas -/

theorem clean_map_snd (s : List (ι × Option ℚ)) :
    (s.filterMap (fun p => p.2.map (fun v => (p.1, v)))).map Prod.snd =
      s.filterMap Prod.snd := by
  induction s with
  | nil => rfl
  | cons p t ih => cases h : p.2 <;> simp [List.filterMap_cons, h, ih]

/-! ## Claims -/

/-- C3 (corrected): `difference_series` with `order=0` and `dropna=False`
returns the input unchanged; with `dropna=True` (the default) it returns the
input with its missing entries removed, which equals the input exactly when
the input has no missing entries. -/
theorem order_zero_behaviour (s : List (ι × Option ℚ)) :
    difference_series s 0 false = s ∧ difference_series s 0 true = seriesDropna s := by
  constructor <;> simp [difference_series]

/-- C3 counterexample: at the default `dropna=True`, order `0` on a series
with one missing entry does not return a series equal to the input — the
missing entry is dropped. -/
theorem order_zero_not_identity :
    difference_series [((0 : ℤ), (none : Option ℚ))] 0 true ≠
      [((0 : ℤ), (none : Option ℚ))] := by
  decide

/-- C5 (confirmed): differencing of order `k` with `dropna=False` is exactly
`k` sequential single differences with `dropna=False` — the two series agree
everywhere (same indices, same values), which in particular gives equality
at each index where both are defined. -/
theorem difference_series_iterated (s : List (ι × Option ℚ)) (k : ℕ) :
    difference_series s k false =
      (fun t => difference_series t 1 false)^[k] s := by
  have h1 : (fun t : List (ι × Option ℚ) => difference_series t 1 false) = seriesDiff := by
    funext t
    simp [difference_series]
  rw [h1]
  simp [difference_series]

/-- C7 (confirmed): `fill_missing` with `method="value"` and no constant
fails with the missing-configuration error, and with any method string other
than the six supported strategies fails with the unsupported-method error;
in both cases the result is an error, not a filled series. -/
theorem fill_missing_failures (s : List (ι × Option ℚ)) (method : String)
    (value : Option ℚ)
    (h : method ∉ (["ffill", "bfill", "mean", "median", "zero", "value"] : List String)) :
    fill_missing s "value" none = .error .missingValue ∧
      fill_missing s method value = .error (.unsupportedMethod method) := by
  simp only [List.mem_cons, List.not_mem_nil, or_false, not_or] at h
  obtain ⟨h1, h2, h3, h4, h5, h6⟩ := h
  exact ⟨rfl, by simp [fill_missing, h1, h2, h3, h4, h5, h6]⟩

/-- Witness for C7 at a concrete series and a concrete unsupported method. -/
theorem fill_missing_failures_witness :
    fill_missing ([((0 : ℤ), some (1 : ℚ))]) "value" none = .error .missingValue ∧
      fill_missing ([((0 : ℤ), some (1 : ℚ))]) "interpolate" none =
        .error (.unsupportedMethod "interpolate") :=
  fill_missing_failures [((0 : ℤ), some (1 : ℚ))] "interpolate" none (by decide)

/-- C9 (confirmed): `boxcox_transform` drops the missing entries and then
fails with the domain-violation error exactly when some remaining value is
`≤ 0`; on failure only the error is returned (no series, no lambda). -/
theorem boxcox_domain_violation (bc : List ℚ → Option ℚ → List ℚ × ℚ)
    (s : List (ι × Option ℚ)) (lmbda : Option ℚ) :
    boxcox_transform bc s lmbda = .error .domainViolation ↔
      ∃ q ∈ s.filterMap Prod.snd, q ≤ 0 := by
  have hsnd := clean_map_snd s
  constructor
  · intro he
    unfold boxcox_transform at he
    by_cases h : (s.filterMap (fun p => p.2.map (fun v => (p.1, v)))).any
        (fun p => decide (p.2 ≤ 0))
    · rw [List.any_eq_true] at h
      obtain ⟨p, hp, hple⟩ := h
      refine ⟨p.2, ?_, by simpa using hple⟩
      rw [← hsnd]
      exact List.mem_map_of_mem Prod.snd hp
    · rw [if_neg h] at he
      cases lmbda <;> simp at he
  · rintro ⟨q, hq, hle⟩
    rw [← hsnd] at hq
    obtain ⟨p, hp, hpq⟩ := List.mem_map.mp hq
    have h : (s.filterMap (fun p => p.2.map (fun v => (p.1, v)))).any
        (fun p => decide (p.2 ≤ 0)) = true := by
      rw [List.any_eq_true]
      exact ⟨p, hp, by simp [hpq, hle]⟩
    unfold boxcox_transform
    rw [if_pos h]

/-! ## Shape of iterated differences -/

theorem diffFrom_length (prev : Option ℚ) (s : List (ι × Option ℚ)) :
    (diffFrom prev s).length = s.length := by
  induction s generalizing prev with
  | nil => rfl
  | cons p t ih => simp [diffFrom, ih]

theorem seriesDiff_length (s : List (ι × Option ℚ)) :
    (seriesDiff s).length = s.length :=
  diffFrom_length none s

/-- `s` consists of `m` missing-valued entries followed by entries that all
carry a value. -/
def NoneThenSome (m : ℕ) (s : List (ι × Option ℚ)) : Prop :=
  ∃ A B, s = A ++ B ∧ A.length = m ∧ (∀ p ∈ A, p.2 = none) ∧ (∀ p ∈ B, p.2.isSome)

theorem diffFrom_allNone (A B : List (ι × Option ℚ)) (hA : ∀ p ∈ A, p.2 = none) :
    diffFrom none (A ++ B) = A ++ diffFrom none B := by
  induction A with
  | nil => rfl
  | cons p t ih =>
    have hp : p.2 = none := hA p (List.mem_cons_self p t)
    have ht : ∀ q ∈ t, q.2 = none := fun q hq => hA q (List.mem_cons_of_mem p hq)
    show (p.1, osub p.2 none) :: diffFrom p.2 (t ++ B) = p :: (t ++ diffFrom none B)
    rw [hp, osub_none_left, ← ih ht, ← hp]

theorem diffFrom_allSome (B : List (ι × Option ℚ)) :
    ∀ x : ℚ, (∀ p ∈ B, p.2.isSome) → ∀ q ∈ diffFrom (some x) B, q.2.isSome := by
  induction B with
  | nil =>
    intro x _ q hq
    simp [diffFrom] at hq
  | cons p t ih =>
    intro x h q hq
    obtain ⟨y, hy⟩ := Option.isSome_iff_exists.mp (h p (List.mem_cons_self p t))
    rw [show diffFrom (some x) (p :: t) =
        (p.1, osub p.2 (some x)) :: diffFrom p.2 t from rfl, hy] at hq
    rcases List.mem_cons.mp hq with rfl | hq'
    · simp [osub]
    · exact ih y (fun r hr => h r (List.mem_cons_of_mem p hr)) q hq'

theorem seriesDiff_shape (s : List (ι × Option ℚ)) (m : ℕ) (h : NoneThenSome m s) :
    NoneThenSome (min (m + 1) s.length) (seriesDiff s) := by
  obtain ⟨A, B, rfl, hlen, hA, hB⟩ := h
  cases B with
  | nil =>
    have hd : seriesDiff (A ++ []) = A ++ diffFrom none [] := diffFrom_allNone A [] hA
    refine ⟨A, [], ?_, ?_, hA, by simp⟩
    · simpa [diffFrom] using hd
    · rw [List.append_nil, hlen]
      omega
  | cons b B' =>
    obtain ⟨y, hy⟩ := Option.isSome_iff_exists.mp (hB b (List.mem_cons_self b B'))
    have hd : seriesDiff (A ++ b :: B') = A ++ diffFrom none (b :: B') :=
      diffFrom_allNone A (b :: B') hA
    refine ⟨A ++ [(b.1, none)], diffFrom (some y) B', ?_, ?_, ?_, ?_⟩
    · rw [hd, show diffFrom none (b :: B') =
          (b.1, osub b.2 none) :: diffFrom b.2 B' from rfl, osub_none_right, hy]
      simp
    · have hle : m + 1 ≤ (A ++ b :: B').length := by
        rw [List.length_append, hlen, List.length_cons]
        omega
      rw [Nat.min_eq_left hle, List.length_append, hlen]
      rfl
    · intro p hp
      rcases List.mem_append.mp hp with h1 | h2
      · exact hA p h1
      · simp only [List.mem_singleton] at h2
        rw [h2]
    · exact diffFrom_allSome B' y (fun r hr => hB r (List.mem_cons_of_mem b hr))

theorem iterate_diff_shape (s : List (ι × Option ℚ)) (h : ∀ p ∈ s, p.2.isSome) (k : ℕ) :
    NoneThenSome (min k s.length) (seriesDiff^[k] s) ∧
      (seriesDiff^[k] s).length = s.length := by
  induction k with
  | zero =>
    exact ⟨⟨[], s, rfl, by simp, by simp, h⟩, by simp⟩
  | succ n ih =>
    obtain ⟨hsh, hlen⟩ := ih
    rw [Function.iterate_succ_apply']
    refine ⟨?_, by rw [seriesDiff_length, hlen]⟩
    have hstep := seriesDiff_shape _ _ hsh
    rw [hlen] at hstep
    have harith : min (min n s.length + 1) s.length = min (n + 1) s.length := by omega
    rwa [harith] at hstep

theorem dropna_of_shape (s : List (ι × Option ℚ)) (m : ℕ) (h : NoneThenSome m s) :
    seriesDropna s = s.drop m := by
  obtain ⟨A, B, rfl, hlen, hA, hB⟩ := h
  unfold seriesDropna
  rw [List.filter_append]
  have h1 : A.filter (fun p => p.2.isSome) = [] :=
    List.filter_eq_nil_iff.mpr (fun p hp => by simp [hA p hp])
  have h2 : B.filter (fun p => p.2.isSome) = B :=
    List.filter_eq_self.mpr (fun p hp => hB p hp)
  rw [h1, h2, List.nil_append, List.drop_left' hlen]

/-- C2 (corrected): on a series with no missing entries, `difference_series`
with `dropna=True` removes exactly the `min k (length)` leading entries of
the `k`-times-differenced sequence (the entries the passes turned missing)
and nothing else. On series that already contain missing entries, `dropna`
also removes the interior entries that `NaN`-propagation turned missing, so
the removal is not limited to the `k` leading ones. -/
theorem difference_dropna_removes_leading (s : List (ι × Option ℚ)) (k : ℕ)
    (h : ∀ p ∈ s, p.2.isSome) :
    difference_series s k true = (seriesDiff^[k] s).drop (min k s.length) := by
  obtain ⟨hsh, _⟩ := iterate_diff_shape s h k
  show seriesDropna (seriesDiff^[k] s) = _
  exact dropna_of_shape _ _ hsh

/-- Witness for C2 on a concrete three-entry series without missing values. -/
theorem difference_dropna_removes_leading_witness :
    difference_series [((0 : ℤ), some (1 : ℚ)), (1, some 3), (2, some 6)] 1 true =
      (seriesDiff^[1] [((0 : ℤ), some (1 : ℚ)), (1, some 3), (2, some 6)]).drop
        (min 1 3) :=
  difference_dropna_removes_leading
    [((0 : ℤ), some (1 : ℚ)), (1, some 3), (2, some 6)] 1 (by decide)

/-- C2 counterexample: on a series with an interior missing entry, one
differencing pass followed by `dropna` removes three entries, not only the
single leading one: the claim's equation fails. -/
theorem difference_dropna_not_only_leading :
    difference_series [((0 : ℤ), some (1 : ℚ)), (1, none), (2, some 3), (3, some 4)]
        1 true ≠
      (seriesDiff^[1]
        [((0 : ℤ), some (1 : ℚ)), (1, none), (2, some 3), (3, some 4)]).drop 1 := by
  decide

/-! ## Fill strategies preserve observed entries -/

/-- Entry-wise relation between an input series and a filled series: same
index tag, and any non-missing input value is carried over unchanged. -/
def PreservesEntry (a b : ι × Option ℚ) : Prop :=
  a.1 = b.1 ∧ ∀ q : ℚ, a.2 = some q → b.2 = some q

theorem fillna_preserves (c : ℚ) (s : List (ι × Option ℚ)) :
    List.Forall₂ PreservesEntry s (seriesFillna c s) := by
  induction s with
  | nil => exact List.Forall₂.nil
  | cons p t ih =>
    refine List.Forall₂.cons ⟨rfl, ?_⟩ ih
    intro q hq
    simp [hq]

theorem fillnaOpt_preserves (c : Option ℚ) (s : List (ι × Option ℚ)) :
    List.Forall₂ PreservesEntry s (seriesFillnaOpt c s) := by
  cases c with
  | none => exact List.forall₂_same.mpr (fun x _ => ⟨rfl, fun q hq => hq⟩)
  | some x => exact fillna_preserves x s

theorem ffillFrom_preserves (s : List (ι × Option ℚ)) :
    ∀ last, List.Forall₂ PreservesEntry s (ffillFrom last s) := by
  induction s with
  | nil => exact fun _ => List.Forall₂.nil
  | cons p t ih =>
    intro last
    cases hp : p.2 with
    | some x =>
      simp only [ffillFrom, hp]
      exact List.Forall₂.cons ⟨rfl, fun q hq => by rw [hp] at hq; exact hq⟩ (ih _)
    | none =>
      simp only [ffillFrom, hp]
      refine List.Forall₂.cons ⟨rfl, fun q hq => ?_⟩ (ih _)
      rw [hp] at hq
      exact absurd hq (by simp)

theorem bfill_preserves (s : List (ι × Option ℚ)) :
    List.Forall₂ PreservesEntry s (seriesBfill s) := by
  have h := List.rel_reverse (ffillFrom_preserves s.reverse none)
  rwa [List.reverse_reverse] at h

/-- C10 (confirmed): for every supported strategy (`ffill`, `bfill`, `mean`,
`median`, `zero`, and `value` with a constant supplied), `fill_missing`
returns a series with the same index tags in which every entry that carried
a value in the input carries that same value in the output — only missing
entries can change. -/
theorem fill_missing_preserves (s : List (ι × Option ℚ)) (method : String)
    (value : Option ℚ)
    (h : method ∈ (["ffill", "bfill", "mean", "median", "zero"] : List String) ∨
      (method = "value" ∧ value.isSome)) :
    ∃ r, fill_missing s method value = .ok r ∧ List.Forall₂ PreservesEntry s r := by
  rcases h with hm | ⟨rfl, hv⟩
  · simp only [List.mem_cons, List.not_mem_nil, or_false] at hm
    rcases hm with rfl | rfl | rfl | rfl | rfl
    · exact ⟨seriesFfill s, rfl, ffillFrom_preserves s none⟩
    · exact ⟨seriesBfill s, rfl, bfill_preserves s⟩
    · exact ⟨seriesFillnaOpt (seriesMean s) s, rfl, fillnaOpt_preserves _ s⟩
    · exact ⟨seriesFillnaOpt (seriesMedian s) s, rfl, fillnaOpt_preserves _ s⟩
    · exact ⟨seriesFillna 0 s, rfl, fillna_preserves 0 s⟩
  · obtain ⟨v, rfl⟩ := Option.isSome_iff_exists.mp hv
    exact ⟨seriesFillna v s, rfl, fillna_preserves v s⟩

/-- Witness for C10: forward fill on a concrete two-entry series. -/
theorem fill_missing_preserves_witness :
    ∃ r, fill_missing [((0 : ℤ), some (5 : ℚ)), (1, none)] "ffill" none = .ok r ∧
      List.Forall₂ PreservesEntry [((0 : ℤ), some (5 : ℚ)), (1, none)] r :=
  fill_missing_preserves [((0 : ℤ), some (5 : ℚ)), (1, none)] "ffill" none
    (Or.inl (by decide))

/-! ## Loader: dropna length and sort order -/

theorem sortByIndex_perm (s : List (Option ℤ × Option ℚ)) :
    List.Perm (sortByIndex s) s :=
  List.perm_insertionSort entryLE s

theorem sortByIndex_sorted (s : List (Option ℤ × Option ℚ)) :
    List.Sorted entryLE (sortByIndex s) :=
  List.sorted_insertionSort entryLE s

/-- Strict increase of the timestamp index: each entry is `≤` its successor
in the `sort_index` order and has a different timestamp. -/
def strictIncrIndex (ts : List (Option ℤ × Option ℚ)) : Prop :=
  List.Chain' (fun a b => entryLE a b ∧ a.1 ≠ b.1) ts

instance : DecidablePred strictIncrIndex := fun ts =>
  inferInstanceAs (Decidable (List.Chain' (fun a b => entryLE a b ∧ a.1 ≠ b.1) ts))

/-- C1 (confirmed): on a file whose date cells all parse, loaded with a date
selector and a value selector resolving to two distinct columns (as in any
call with a date column and a value column), `load_timeseries` with
`dropna=True` returns a series whose length is the number of rows with both
a parseable date and a parseable value, and every surviving entry has a
parsed date and a parsed value — rows where a parse failed are absent. -/
theorem load_dropna_length (parseDate : String → Option ℤ)
    (parseNum : String → Option ℚ)
    (asfreq : List (Option ℤ × Option ℚ) → List (Option ℤ × Option ℚ))
    (lines : List (List String)) (dateCol valueCol : ℤ ⊕ String)
    (dName vName : String)
    (hd : resolveCol (read_csv lines true).cols dateCol = .ok dName)
    (hv : resolveCol (read_csv lines true).cols valueCol = .ok vName)
    (hne : vName ≠ dName)
    (hdates : ∀ p ∈ extractSeries parseDate parseNum (read_csv lines true) dName vName,
      p.1.isSome) :
    ∃ ts,
      load_timeseries parseDate parseNum asfreq (some lines) dateCol valueCol
          true none false true true = .ok ts ∧
        ts.length = (extractSeries parseDate parseNum (read_csv lines true)
          dName vName).countP (fun p => p.1.isSome && p.2.isSome) ∧
        ∀ p ∈ ts, p.1.isSome ∧ p.2.isSome := by
  have hload : load_timeseries parseDate parseNum asfreq (some lines) dateCol valueCol
      true none false true true =
        .ok (sortByIndex (seriesDropna
          (extractSeries parseDate parseNum (read_csv lines true) dName vName))) := by
    simp [load_timeseries, buildFrame, hd, hv, setIndexSelect, hne]
  refine ⟨_, hload, ?_, ?_⟩
  · rw [(sortByIndex_perm _).length_eq]
    unfold seriesDropna
    rw [← List.countP_eq_length_filter]
    exact List.countP_congr (fun p hp => by simp [hdates p hp])
  · intro p hp
    have hp' := (sortByIndex_perm _).mem_iff.mp hp
    have hmem := List.mem_filter.mp hp'
    exact ⟨hdates p hmem.1, hmem.2⟩

/-- Witness for C1: a two-row file with a header, both dates parseable, one
value unparseable; the loaded series keeps exactly the fully-parsed row. -/
theorem load_dropna_length_witness :
    ∃ ts,
      load_timeseries (fun c => if c = "d1" then some 1 else if c = "d2" then some 2 else none)
          (fun c => if c = "10" then some 10 else none) id
          (some [["date", "value"], ["d2", "10"], ["d1", "xx"]])
          (.inl 0) (.inl 1) true none false true true = .ok ts ∧
        ts.length = (extractSeries
          (fun c => if c = "d1" then some 1 else if c = "d2" then some 2 else none)
          (fun c => if c = "10" then some 10 else none)
          (read_csv [["date", "value"], ["d2", "10"], ["d1", "xx"]] true)
          "date" "value").countP (fun p => p.1.isSome && p.2.isSome) ∧
        ∀ p ∈ ts, p.1.isSome ∧ p.2.isSome :=
  load_dropna_length
    (fun c => if c = "d1" then some 1 else if c = "d2" then some 2 else none)
    (fun c => if c = "10" then some 10 else none) id
    [["date", "value"], ["d2", "10"], ["d1", "xx"]]
    (.inl 0) (.inl 1) "date" "value" (by rfl) (by rfl) (by decide) (by decide)

/-- C4 (corrected): with `sort_index=True` (and no frequency step) the index
of a loaded series is non-decreasing in the `sort_index` order; it is
strictly increasing only when the parsed timestamps are pairwise distinct —
a file with duplicate dates yields equal adjacent index entries. -/
theorem load_sort_index_sorted (parseDate : String → Option ℤ)
    (parseNum : String → Option ℚ)
    (asfreq : List (Option ℤ × Option ℚ) → List (Option ℤ × Option ℚ))
    (lines : List (List String)) (dateCol valueCol : ℤ ⊕ String)
    (hasHeader : Bool) (columnNames : Option (List String)) (dropna : Bool)
    (ts : List (Option ℤ × Option ℚ))
    (h : load_timeseries parseDate parseNum asfreq (some lines) dateCol valueCol
      hasHeader columnNames false dropna true = .ok ts) :
    List.Sorted entryLE ts ∧
      (List.Pairwise (fun a b => a.1 ≠ b.1) ts → strictIncrIndex ts) := by
  have hts : ∃ u, ts = sortByIndex u := by
    simp only [load_timeseries] at h
    split at h
    · exact absurd h (by simp)
    · split at h
      · exact absurd h (by simp)
      · split at h
        · exact absurd h (by simp)
        · split at h
          · exact absurd h (by simp)
          · simp only [Bool.false_eq_true, if_false, if_pos rfl,
              Except.ok.injEq] at h
            exact ⟨_, h.symm⟩
  obtain ⟨u, rfl⟩ := hts
  refine ⟨sortByIndex_sorted u, fun hne => ?_⟩
  exact List.Pairwise.chain' (List.Pairwise.and (sortByIndex_sorted u) hne)

/-- Witness for C4's amended statement on a concrete duplicate-date file. -/
theorem load_sort_index_sorted_witness :
    List.Sorted entryLE [((some 0 : Option ℤ), some (1 : ℚ)), (some 0, some 2)] ∧
      (List.Pairwise (fun a b => a.1 ≠ b.1)
          [((some 0 : Option ℤ), some (1 : ℚ)), (some 0, some 2)] →
        strictIncrIndex [((some 0 : Option ℤ), some (1 : ℚ)), (some 0, some 2)]) :=
  load_sort_index_sorted (fun _ => some 0)
    (fun c => if c = "1" then some 1 else if c = "2" then some 2 else none) id
    [["d", "v"], ["x", "1"], ["x", "2"]] (.inl 0) (.inl 1) true none true
    [((some 0 : Option ℤ), some (1 : ℚ)), (some 0, some 2)] (by rfl)

/-- C4 counterexample: a valid headed file with two rows carrying the same
date loads (with `sort_index=True`) to a series whose index is `NOT`
strictly increasing: the two index entries are equal. -/
theorem load_sort_index_not_strict :
    load_timeseries (fun _ => some 0)
        (fun c => if c = "1" then some 1 else if c = "2" then some 2 else none) id
        (some [["d", "v"], ["x", "1"], ["x", "2"]]) (.inl 0) (.inl 1)
        true none false true true =
      .ok [((some 0 : Option ℤ), some (1 : ℚ)), (some 0, some 2)] ∧
    ¬ strictIncrIndex [((some 0 : Option ℤ), some (1 : ℚ)), (some 0, some 2)] := by
  refine ⟨by rfl, fun hc => ?_⟩
  exact (List.chain'_cons.mp hc).1.2 rfl

/-! ## Loader: column resolution and configuration errors -/

/-- A selector that `_resolve_col` cannot resolve: a position outside the
table width (in Python's signed-index sense) or a name absent from the
columns. -/
def colMissing (cols : List String) : ℤ ⊕ String → Prop
  | .inl i => i < -(cols.length : ℤ) ∨ (cols.length : ℤ) ≤ i
  | .inr name => name ∉ cols

instance (cols : List String) : DecidablePred (colMissing cols) := fun col =>
  match col with
  | .inl i =>
    inferInstanceAs (Decidable (i < -(cols.length : ℤ) ∨ (cols.length : ℤ) ≤ i))
  | .inr name => inferInstanceAs (Decidable (name ∉ cols))

theorem resolveCol_error_iff (cols : List String) (col : ℤ ⊕ String) :
    resolveCol cols col = .error (.columnNotFound cols) ↔ colMissing cols col := by
  cases col with
  | inl i =>
    simp only [resolveCol, colMissing]
    split
    · rename_i h1
      constructor
      · intro hh
        simp at hh
      · intro hh
        exact absurd hh (by omega)
    · split
      · rename_i h1 h2
        constructor
        · intro hh
          simp at hh
        · intro hh
          exact absurd hh (by omega)
      · rename_i h1 h2
        constructor
        · intro _
          omega
        · intro _
          rfl
  | inr name =>
    simp only [resolveCol, colMissing]
    split
    · rename_i hmem
      constructor
      · intro hh
        simp at hh
      · intro hh
        exact absurd hmem hh
    · rename_i hmem
      constructor
      · intro _
        exact hmem
      · intro _
        rfl

theorem resolveCol_ok_of_not_missing (cols : List String) (col : ℤ ⊕ String)
    (h : ¬ colMissing cols col) : ∃ nm, resolveCol cols col = .ok nm := by
  cases col with
  | inl i =>
    simp only [colMissing] at h
    simp only [resolveCol]
    split
    · exact ⟨_, rfl⟩
    · split
      · exact ⟨_, rfl⟩
      · rename_i h1 h2
        exfalso
        omega
  | inr name =>
    simp only [colMissing, not_not] at h
    simp only [resolveCol]
    split
    · exact ⟨_, rfl⟩
    · rename_i hmem
      exact absurd h hmem

/-- C6 counterexample: the claim quantifies over every file path, but the
existence check runs before column resolution: on a missing path with a
position far beyond any table width, `load_timeseries` fails with the
file-not-found error, never with a column-not-found error listing available
columns. -/
theorem load_file_check_precedes_columns :
    load_timeseries (fun _ => none) (fun _ => none) id none (.inl 5) (.inl 1) true
        none false true true = .error .fileNotFound ∧
      ∀ cols : List String, LoadError.fileNotFound ≠ LoadError.columnNotFound cols :=
  ⟨rfl, fun _ h => LoadError.noConfusion h⟩

/-- C6 (corrected): on an existing headed file, `load_timeseries` fails with
the column-not-found error carrying exactly the actual column names
precisely when the date selector or the value selector is a position outside
the table width or a name absent from the header; otherwise both selectors
resolve to column names. Resolution success yields a fully loaded series
only when the two resolved names are distinct: when they coincide,
`df.set_index(date_col_name)[value_col_name]` raises a `KeyError` because
`set_index` consumed the column. -/
theorem load_column_resolution (parseDate : String → Option ℤ)
    (parseNum : String → Option ℚ)
    (asfreq : List (Option ℤ × Option ℚ) → List (Option ℤ × Option ℚ))
    (lines : List (List String)) (dateCol valueCol : ℤ ⊕ String)
    (freq dropna sortIndex : Bool) :
    (load_timeseries parseDate parseNum asfreq (some lines) dateCol valueCol true none
        freq dropna sortIndex = .error (.columnNotFound (read_csv lines true).cols) ↔
      (colMissing (read_csv lines true).cols dateCol ∨
        colMissing (read_csv lines true).cols valueCol)) ∧
    (¬(colMissing (read_csv lines true).cols dateCol ∨
        colMissing (read_csv lines true).cols valueCol) →
      ∃ dn vn, resolveCol (read_csv lines true).cols dateCol = .ok dn ∧
        resolveCol (read_csv lines true).cols valueCol = .ok vn) ∧
    (∀ dn vn, resolveCol (read_csv lines true).cols dateCol = .ok dn →
      resolveCol (read_csv lines true).cols valueCol = .ok vn → vn ≠ dn →
      ∃ ts, load_timeseries parseDate parseNum asfreq (some lines) dateCol valueCol
        true none freq dropna sortIndex = .ok ts) ∧
    (∀ dn vn, resolveCol (read_csv lines true).cols dateCol = .ok dn →
      resolveCol (read_csv lines true).cols valueCol = .ok vn → vn = dn →
      load_timeseries parseDate parseNum asfreq (some lines) dateCol valueCol
        true none freq dropna sortIndex = .error (.keyError vn)) := by
  have h3 : ∀ dn vn, resolveCol (read_csv lines true).cols dateCol = .ok dn →
      resolveCol (read_csv lines true).cols valueCol = .ok vn → vn ≠ dn →
      ∃ ts, load_timeseries parseDate parseNum asfreq (some lines) dateCol valueCol
        true none freq dropna sortIndex = .ok ts := by
    intro dn vn hdn hvn hne
    simp [load_timeseries, buildFrame, hdn, hvn, setIndexSelect, hne]
  have h4 : ∀ dn vn, resolveCol (read_csv lines true).cols dateCol = .ok dn →
      resolveCol (read_csv lines true).cols valueCol = .ok vn → vn = dn →
      load_timeseries parseDate parseNum asfreq (some lines) dateCol valueCol
        true none freq dropna sortIndex = .error (.keyError vn) := by
    intro dn vn hdn hvn heq
    simp [load_timeseries, buildFrame, hdn, hvn, setIndexSelect, heq]
  have h2 : ¬(colMissing (read_csv lines true).cols dateCol ∨
      colMissing (read_csv lines true).cols valueCol) →
      ∃ dn vn, resolveCol (read_csv lines true).cols dateCol = .ok dn ∧
        resolveCol (read_csv lines true).cols valueCol = .ok vn := by
    intro hn
    obtain ⟨dn, hdn⟩ :=
      resolveCol_ok_of_not_missing _ dateCol (fun hm => hn (Or.inl hm))
    obtain ⟨vn, hvn⟩ :=
      resolveCol_ok_of_not_missing _ valueCol (fun hm => hn (Or.inr hm))
    exact ⟨dn, vn, hdn, hvn⟩
  refine ⟨?_, h2, h3, h4⟩
  constructor
  · intro he
    by_contra hn
    obtain ⟨dn, vn, hdn, hvn⟩ := h2 hn
    by_cases heq : vn = dn
    · rw [h4 dn vn hdn hvn heq] at he
      simp at he
    · obtain ⟨ts, hts⟩ := h3 dn vn hdn hvn heq
      rw [hts] at he
      simp at he
  · intro hm
    by_cases hd : colMissing (read_csv lines true).cols dateCol
    · have hde := (resolveCol_error_iff (read_csv lines true).cols dateCol).mpr hd
      simp [load_timeseries, buildFrame, hde]
    · have hv : colMissing (read_csv lines true).cols valueCol := hm.resolve_left hd
      obtain ⟨dn, hdn⟩ := resolveCol_ok_of_not_missing _ dateCol hd
      have hve := (resolveCol_error_iff (read_csv lines true).cols valueCol).mpr hv
      simp [load_timeseries, buildFrame, hdn, hve]

/-- Witness for C6's amended statement: on a concrete two-column file both
selectors resolve to distinct names and loading fully succeeds. -/
theorem load_column_resolution_witness :
    ∃ ts, load_timeseries (fun _ => none) (fun _ => none) id
        (some [["date", "value"], ["a", "b"]]) (.inl 0) (.inr "value") true none
        false true true = .ok ts :=
  (load_column_resolution (fun _ => none) (fun _ => none) id
    [["date", "value"], ["a", "b"]] (.inl 0) (.inr "value") false true true).2.2.1
    "date" "value" rfl rfl (by decide)

/-- C8 (corrected, amended part): when the input file exists, a call with
`has_header=False` whose `column_names` is absent or does not hold exactly
two names fails with the missing-configuration error, before any series is
built. -/
theorem load_headerless_missing_names (parseDate : String → Option ℤ)
    (parseNum : String → Option ℚ)
    (asfreq : List (Option ℤ × Option ℚ) → List (Option ℤ × Option ℚ))
    (lines : List (List String)) (dateCol valueCol : ℤ ⊕ String)
    (columnNames : Option (List String)) (freq dropna sortIndex : Bool)
    (h : ∀ l, columnNames = some l → l.length ≠ 2) :
    load_timeseries parseDate parseNum asfreq (some lines) dateCol valueCol false
      columnNames freq dropna sortIndex = .error .missingConfiguration := by
  have hb : buildFrame lines false columnNames = .error .missingConfiguration := by
    cases columnNames with
    | none => rfl
    | some l =>
      have hl := h l rfl
      simp [buildFrame, hl]
  simp [load_timeseries, hb]

/-- Witness for C8's amended statement: headerless call with no column names
on an existing file. -/
theorem load_headerless_missing_names_witness :
    load_timeseries (fun _ => none) (fun _ => none) id (some [["1", "2"]])
      (.inl 0) (.inl 1) false none false true true = .error .missingConfiguration :=
  load_headerless_missing_names (fun _ => none) (fun _ => none) id [["1", "2"]]
    (.inl 0) (.inl 1) none false true true (fun _ hl => nomatch hl)

/-- C8 counterexample: the existence check runs first, so a call with
`has_header=False` and no `column_names` on a missing path fails with the
file-not-found error, not the missing-configuration error the claim
demands for every such call. -/
theorem load_missing_file_takes_precedence :
    load_timeseries (fun _ => none) (fun _ => none) id none (.inl 0) (.inl 1) false
        none false true true = .error .fileNotFound ∧
      LoadError.fileNotFound ≠ LoadError.missingConfiguration :=
  ⟨rfl, by decide⟩
